import Mathlib

/-!
Verification development for the SLSPC repository: a shallow embedding of
the rating-area resolver (`mergeLA9.py`), the county-name normalizer,
the quote extractors (`scraper_v2.py`, `app.py`), the retrying batch
runner (`app2.py`), the resumable batch runner (`scraper_v2.py`), and the
parameter-file updater (`update_yaml_2026.py`), together with theorems
settling the specification claims about them.

Python strings are modelled as `String` (lists of characters); all the
string primitives the scripts use (`strip`, `replace`, `isdigit`,
`zfill`, slicing, `lower`/`upper`, substring search) are defined here on
`List Char` so that every definition evaluates by kernel reduction.
-/

/-- Characters treated as whitespace by Python's `str.strip()`. -/
def isPySpace (c : Char) : Bool :=
  c = ' ' || c = '\t' || c = '\n' || c = '\r' || c = '\x0b' || c = '\x0c'

/-- Python `str.strip()` on a character list. -/
def stripL (l : List Char) : List Char :=
  ((l.dropWhile isPySpace).reverse.dropWhile isPySpace).reverse

/-- Python `str.strip()`. -/
def pyStrip (s : String) : String :=
  ⟨stripL s.data⟩

/-- Worker for Python `str.replace(old, new)`: scans left to right, and on a
match emits `rep` and skips the rest of the pattern (`skip` counts characters
of a matched pattern still to be consumed).  Faithful to Python for non-empty
patterns, which is the only way the scripts call it. -/
def replaceGo (pat rep : List Char) : List Char → Nat → List Char
  | [], _ => []
  | _ :: rest, n + 1 => replaceGo pat rep rest n
  | c :: rest, 0 =>
    if pat.isPrefixOf (c :: rest) then
      rep ++ replaceGo pat rep rest (pat.length - 1)
    else
      c :: replaceGo pat rep rest 0

/-- Python `s.replace(old, new)` (non-overlapping, left to right, no rescan
of the replacement text). -/
def pyReplace (s old new : String) : String :=
  ⟨replaceGo old.data new.data s.data 0⟩

/-- Python `str.zfill(5)` for the digit-only ZIP strings the scripts feed it:
left-pad with `'0'` to length 5. -/
def zfill5 (s : String) : String :=
  if 5 ≤ s.data.length then s else ⟨List.replicate (5 - s.data.length) '0' ++ s.data⟩

/-- Python `str.isdigit()` restricted to ASCII digits (all inputs in the
scripts are ASCII). -/
def pyIsDigit (s : String) : Bool :=
  !s.data.isEmpty && s.data.all Char.isDigit

/-- ASCII lower-casing of one character (Python `str.lower()` on the ASCII
texts the scripts handle). -/
def asciiLower (c : Char) : Char :=
  if 'A' ≤ c && c ≤ 'Z' then Char.ofNat (c.toNat + 32) else c

/-- ASCII upper-casing of one character (Python `str.upper()`). -/
def asciiUpper (c : Char) : Char :=
  if 'a' ≤ c && c ≤ 'z' then Char.ofNat (c.toNat - 32) else c

/-- Python `str.upper()` on ASCII strings. -/
def pyUpper (s : String) : String :=
  ⟨s.data.map asciiUpper⟩

/-- Substring test: does `sub` occur contiguously in `l`? -/
def containsSub (sub : List Char) : List Char → Bool
  | [] => sub.isEmpty
  | c :: rest => sub.isPrefixOf (c :: rest) || containsSub sub rest

/-!
## Rating-Area Resolver (`mergeLA9.py`)

`standardize_county_name` is the deterministic text cleaner of
`mergeLA9.py` lines 8-81: strip, remove " County"/" Parish", normalize
" city", drop stray `</p>` tags, then apply the fixed misspelling table
in its written (insertion) order, and strip again.  The `pd.isna` branch
is not modelled because only string inputs are considered.
-/

/-- The misspelling-correction table of `mergeLA9.py`, in dict insertion
order. -/
def replacements : List (String × String) :=
  [ ("Kosclusko", "Kosciusko")
  , ("Deleware", "Delaware")
  , ("Davless", "Daviess")
  , ("Dubols", "Dubois")
  , ("Marlon", "Marion")
  , ("Dupage", "DuPage")
  , ("De Witt", "DeWitt")
  , ("San Bernadino", "San Bernardino")
  , ("Chautaugua", "Chautauqua")
  , ("Trail", "Traill")
  , ("Trailll", "Traill")
  , ("Vermillion", "Vermilion")
  , ("Culbertson", "Culberson")
  , ("Ochittree", "Ochiltree")
  , ("Wheiler", "Wheeler")
  , ("LaFayette", "Lafayette")
  , ("Heralson", "Haralson")
  , ("DeKalb", "De Kalb")
  , ("Desoto", "DeSoto")
  , ("Lac Qui Parle", "Lac qui Parle")
  , ("Lac qui Parle", "Lac qui Parle")
  , ("Galia", "Gallia")
  , ("Mc Cook", "McCook")
  , ("Bonn Homme", "Bon Homme")
  , ("DeBaca", "De Baca")
  , ("Saint", "St.")
  , ("St ", "St. ") ]

/-- `standardize_county_name` from `mergeLA9.py`. -/
def standardize_county_name (county : String) : String :=
  let c := pyStrip county
  let c := pyReplace c " County" ""
  let c := pyReplace c " city" " City"
  let c := pyReplace c " Parish" ""
  let c := pyReplace c "</p>" ""
  let c := replacements.foldl (fun acc p => pyReplace acc p.1 p.2) c
  pyStrip c

/-- One row of the ZIP-to-county crosswalk (`ZIP-COUNTY-FIPS` file): the
columns `merge_rating_areas` actually consults.  The pass-through columns
(`STCOUNTYFP`, `CLASSFP`, the original county name) are carried unchanged
into the output by the script and play no role in the resolution. -/
structure CountyRecord where
  zip : String
  county : String
  state : String
deriving DecidableEq, Repr

/-- One row of the rating-area rule table (`areas.csv`). -/
structure AreaRule where
  state : String
  county_zip3 : String
  area : String
deriving DecidableEq, Repr

/-- Association-list lookup in which the LAST binding of a key wins,
mirroring Python dict construction by repeated assignment. -/
def lookupLast {α β : Type} [DecidableEq α] : List (α × β) → α → Option β
  | [], _ => none
  | p :: rest, k =>
    match lookupLast rest k with
    | some v => some v
    | none => if p.1 = k then some p.2 else none

/-- The territory states given fixed rating area "1" (`mergeLA9.py` line 104). -/
def territories : List String := ["GU", "VI", "PR", "AS", "MP"]

/-- The hard-coded Los Angeles ZIP3 prefixes assigned rating area "15"
(`mergeLA9.py` line 132). -/
def la15 : List String :=
  ["906", "907", "908", "910", "911", "912", "915", "917", "918", "935"]

/-- The hard-coded Los Angeles ZIP3 prefixes assigned rating area "16"
(`mergeLA9.py` line 134). -/
def la16 : List String :=
  ["900", "902", "903", "904", "905", "913", "914", "916", "923", "928", "932"]

/-- The rule table after `standardize_county_name` is applied to its
`COUNTY_ZIP3` column (`mergeLA9.py` line 114). -/
def standardizedRules (rules : List AreaRule) : List AreaRule :=
  rules.map fun r => { r with county_zip3 := standardize_county_name r.county_zip3 }

/-- The ZIP3-keyed mapping `zip3_mapping`: rules whose standardized
`COUNTY_ZIP3` is purely numeric, keyed by `(STATE, COUNTY_ZIP3)`;
later rows overwrite earlier ones as in a Python dict. -/
def zip3_mapping (rules : List AreaRule) : List ((String × String) × String) :=
  ((standardizedRules rules).filter fun r => pyIsDigit r.county_zip3).map
    fun r => ((r.state, r.county_zip3), r.area)

/-- The county-name-keyed mapping `county_mapping`: rules whose standardized
`COUNTY_ZIP3` is not purely numeric. -/
def county_mapping (rules : List AreaRule) : List ((String × String) × String) :=
  ((standardizedRules rules).filter fun r => !pyIsDigit r.county_zip3).map
    fun r => ((r.state, r.county_zip3), r.area)

/-- First three characters of the zero-filled ZIP (`result['ZIP3']`,
`mergeLA9.py` lines 99-100). -/
def zip3_of (zip : String) : String :=
  ⟨(zfill5 zip).data.take 3⟩

/-- The two generic matching passes of the per-record loop
(`mergeLA9.py` lines 138-147): ZIP3 lookup first (with `continue` on a
hit), then county lookup; `current` is whatever `rating_area` the record
already holds when control reaches the ZIP3 pass. -/
def genericPasses (rules : List AreaRule) (state z3 cstd : String)
    (current : Option String) : Option String :=
  match lookupLast (zip3_mapping rules) (state, z3) with
  | some a => some a
  | none =>
    match lookupLast (county_mapping rules) (state, cstd) with
    | some a => some a
    | none => current

/-- The rating area `merge_rating_areas` assigns to one county-reference
record (`mergeLA9.py` lines 103-147).  Territories get "1" before the loop;
in the loop the CA "15" branch assigns and then falls through into the
generic passes (it has no `continue`), while the "16" branch assigns and
skips them (its branch ends in `continue`). -/
def resolveRecord (rules : List AreaRule) (r : CountyRecord) : Option String :=
  if r.state ∈ territories then some "1"
  else
    let z3 := zip3_of r.zip
    let cstd := standardize_county_name r.county
    if r.state = "CA" ∧ z3 ∈ la15 then genericPasses rules r.state z3 cstd (some "15")
    else if r.state = "CA" ∧ z3 ∈ la16 then some "16"
    else genericPasses rules r.state z3 cstd none

/-- `merge_rating_areas`: each input record paired with its resolved
rating area (`None` modelling the NaN of an unmatched record). -/
def merge_rating_areas (records : List CountyRecord) (rules : List AreaRule) :
    List (CountyRecord × Option String) :=
  records.map fun r => (r, resolveRecord rules r)

/-!
## Quote Extractor (`scraper_v2.py`, `app.py`)

The browser protocol is an external effect; an invocation of it is
modelled by its outcome: `Except PageError t` where `t` is the data the
successful interaction yields, and a `PageError` is any exception raised
inside the protocol (timeout, element not found, navigation failure).
The regular-expression fragments the extractors use are implemented
literally on character lists.
-/

/-- A failure raised inside the browser-interaction protocol. -/
inductive PageError where
  | timeout
  | elementNotFound
  | navigation
deriving DecidableEq, Repr

/-- The result record both scrapers build: keys `State`, `Zip`, `Age`,
`Unsubsidized Cost`. -/
structure QuoteResult where
  state : String
  zip : String
  age : Nat
  cost : String
deriving DecidableEq, Repr

/-- `re.match(r"\$\d+", text)` viewed as a Bool: a `'$'` at the very start
of the text followed by at least one digit. -/
def reMatchDollarDigits (l : List Char) : Bool :=
  match l with
  | c :: d :: _ => c = '$' && d.isDigit
  | _ => false

/-- Is there a `'$'` immediately followed by an ASCII digit anywhere in the
text?  This is exactly the satisfiability of the pattern `\$\d`. -/
def hasDollarDigit : List Char → Bool
  | [] => false
  | c :: rest => reMatchDollarDigits (c :: rest) || hasDollarDigit rest

/-- The group of the pattern `\$(\d+,?\d*)` matched at the head of `l`, if
any: one-or-more digits, a greedily taken optional comma, zero-or-more
digits. -/
def matchDollarAt (l : List Char) : Option (List Char) :=
  match l with
  | [] => none
  | c :: rest =>
    if c = '$' then
      let d1 := rest.takeWhile Char.isDigit
      let r1 := rest.dropWhile Char.isDigit
      if d1.isEmpty then none
      else
        match r1 with
        | [] => some d1
        | c2 :: r2 => if c2 = ',' then some (d1 ++ ',' :: r2.takeWhile Char.isDigit) else some d1
    else none

/-- `re.search(r"\$(\d+,?\d*)", text)`: the group of the leftmost match. -/
def reSearchDollar : List Char → Option (List Char)
  | [] => none
  | c :: rest =>
    match matchDollarAt (c :: rest) with
    | some g => some g
    | none => reSearchDollar rest

/-- `extract_unsubsidized_cost` of `app.py` (lines 64-76).  Its input is the
`inner_text` of the cost `dd` element; `none` models the selector lookup
raising (caught by the `except`, which also returns "N/A"). -/
def extract_unsubsidized_cost_app (costText : Option String) : String :=
  match costText with
  | none => "N/A"
  | some t =>
    match reSearchDollar t.data with
    | some g => ⟨g⟩
    | none => "N/A"

/-- The results page as `extract_unsubsidized_cost` of `scraper_v2.py` sees
it: for each `span.bold-blue`, its `inner_text` together with the
`innerText` of the `dt` preceding its closest `dd` ancestor (`none` models
that DOM walk raising), plus the full page HTML. -/
structure PageModel where
  boldBlueSpans : List (String × Option String)
  html : String
deriving DecidableEq, Repr

/-- Strategy 1 of `extract_unsubsidized_cost` (`scraper_v2.py` lines
220-236): scan the bold-blue spans for a `$digits` text whose associated
`dt` text mentions "silver plan".  Result `none` means the `try` block
raised (the DOM walk failed on a candidate span), `some none` means the
loop finished without returning, `some (some c)` means cost `c` was
returned. -/
def strategy1 : List (String × Option String) → Option (Option String)
  | [] => some none
  | sp :: rest =>
    if "$".data.isPrefixOf sp.1.data && reMatchDollarDigits sp.1.data then
      match sp.2 with
      | none => none
      | some p =>
        if containsSub "silver plan".data (p.data.map asciiLower) then
          some (some (pyReplace (pyReplace sp.1 "$" "") "," ""))
        else strategy1 rest
    else strategy1 rest

/-- `pat.isPrefixOf l`, and on success the remainder of `l`. -/
def stripPrefixL (pat l : List Char) : Option (List Char) :=
  if pat.isPrefixOf l then some (l.drop pat.length) else none

/-- Remainder of `l` after the first occurrence of `pat`, if `pat` occurs. -/
def dropAfterSub (pat : List Char) : List Char → Option (List Char)
  | [] => if pat.isEmpty then some [] else none
  | c :: rest =>
    match stripPrefixL pat (c :: rest) with
    | some r => some r
    | none => dropAfterSub pat rest

/-- The tail of the strategy-2 regex matched at the head of `l`:
`<span[^>]*>\$(\d+,?\d*)</span>`, returning the group.  `[^>]*` is greedy
over non-`'>'` characters; for the digit/comma group only the greedy
split can be followed by `"</span>"` (a shrunk digit run is followed by a
digit, never `'<'`), so the match is deterministic. -/
def matchSpanDollarAt (l : List Char) : Option (List Char) :=
  match stripPrefixL "<span".data l with
  | none => none
  | some r1 =>
    match r1.dropWhile (· ≠ '>') with
    | [] => none
    | _ :: r2 =>
      match r2 with
      | [] => none
      | c :: r3 =>
        if c = '$' then
          let d1 := r3.takeWhile Char.isDigit
          let r4 := r3.dropWhile Char.isDigit
          if d1.isEmpty then none
          else
            match r4 with
            | [] => if "</span>".data.isPrefixOf r4 then some d1 else none
            | c2 :: r5 =>
              if c2 = ',' then
                let d2 := r5.takeWhile Char.isDigit
                let r6 := r5.dropWhile Char.isDigit
                if "</span>".data.isPrefixOf r6 then some (d1 ++ ',' :: d2) else none
              else if "</span>".data.isPrefixOf r4 then some d1 else none
        else none

/-- Leftmost occurrence of the strategy-2 span pattern. -/
def findSpanDollar : List Char → Option (List Char)
  | [] => none
  | c :: rest =>
    match matchSpanDollarAt (c :: rest) with
    | some g => some g
    | none => findSpanDollar rest

/-- Strategy 2 of `extract_unsubsidized_cost` (`scraper_v2.py` lines
239-248): `re.search(r'silver plan would cost:.*?<span[^>]*>\$(\d+,?\d*)
</span>', html, DOTALL | IGNORECASE)`.  Case-insensitivity is modelled by
lower-casing the HTML (digits and punctuation are unaffected); the lazy
`.*?` makes the match the earliest span pattern after the first occurrence
of the literal. -/
def strategy2 (html : String) : Option (List Char) :=
  match dropAfterSub "silver plan would cost:".data (html.data.map asciiLower) with
  | none => none
  | some suffix => findSpanDollar suffix

/-- Strategy 3 of `extract_unsubsidized_cost` (`scraper_v2.py` lines
251-260): the first bold-blue span whose text starts with `'$'`, with
`'$'` and `','` characters stripped. -/
def strategy3 (spans : List (String × Option String)) : Option String :=
  match spans.find? (fun s => "$".data.isPrefixOf s.1.data) with
  | some s => some (pyReplace (pyReplace s.1 "$" "") "," "")
  | none => none

/-- `extract_unsubsidized_cost` of `scraper_v2.py` (lines 214-262): try the
three strategies in order and fall back to "N/A". -/
def extract_unsubsidized_cost_v2 (page : PageModel) : String :=
  match strategy1 page.boldBlueSpans with
  | some (some c) => c
  | _ =>
    match strategy2 page.html with
    | some g => pyReplace ⟨g⟩ "," ""
    | none =>
      match strategy3 page.boldBlueSpans with
      | some c => c
      | none => "N/A"

/-- `scrape_kff_calculator` of `scraper_v2.py` (lines 71-212): the protocol
outcome carries the extracted cost string on success; ANY exception is
caught and converted into a result whose cost is the sentinel "ERROR"
(lines 204-212). -/
def scrape_kff_calculator_v2 (state zip : String) (age : Nat)
    (protocol : Except PageError String) : QuoteResult :=
  match protocol with
  | Except.ok cost => ⟨pyUpper state, zip, age, cost⟩
  | Except.error _ => ⟨pyUpper state, zip, age, "ERROR"⟩

/-- `scrape_kff_calculator` of `app.py` (lines 10-62): on success the
result carries the extracted cost; an exception inside the protocol is
logged and RE-RAISED (`raise`, line 62), so the invocation propagates it
to its caller. -/
def scrape_kff_calculator_app (state zip : String) (age : Nat)
    (protocol : Except PageError String) : Except PageError QuoteResult :=
  match protocol with
  | Except.ok cost => Except.ok ⟨state, zip, age, cost⟩
  | Except.error e => Except.error e

/-- `process_csv` of `app.py` (lines 78-98): iterate the uploaded ZIP list,
zero-fill each ZIP, call the scraper, append the result; a propagated
exception is caught per-request (`st.error`) and the row is dropped.
`proto` gives each ZIP's protocol outcome. -/
def process_csv_app (rows : List String) (state : String) (age : Nat)
    (proto : String → Except PageError String) : List QuoteResult :=
  match rows with
  | [] => []
  | z :: rest =>
    match scrape_kff_calculator_app state (zfill5 z) age (proto (zfill5 z)) with
    | Except.ok r => r :: process_csv_app rest state age proto
    | Except.error _ => process_csv_app rest state age proto

/-!
## Batch Runner with retry (`app2.py`)

`scrape_kff_calculator` of `app2.py` already converts every internal
failure to the numeric sentinel `0`, so from `process_csv`'s point of view
an attempt is just a number: `scrape n` is the cost returned by the
`n`-th call for the current ZIP.  The retry loop
(`while retry_count < max_retries and cost == 0:`) sleeps
`time.sleep(random.uniform(5, 8))` before every attempt except the first;
a sleep is recorded as the `(5, 8)` bounds passed to `random.uniform`.
-/

/-- The retry loop of `process_csv` in `app2.py` (lines 124-134), entered
with `retry_count = 0` and `cost = 0`.  `left` is
`max_retries - retry_count` (so the loop guard `retry_count < max_retries`
is `0 < left`) and `calls` counts the scraper calls made so far; while the
loop is still running every earlier call returned `0`, so
`retry_count = calls` and the pre-attempt sleep guard `retry_count > 0` is
`calls > 0`.  Returns (final cost, total calls, recorded sleeps). -/
def retryLoop (scrape : Nat → Nat) : Nat → Nat → List (Nat × Nat) →
    Nat × Nat × List (Nat × Nat)
  | 0, calls, sleeps => (0, calls, sleeps)
  | left + 1, calls, sleeps =>
    let sleeps' := if 0 < calls then sleeps ++ [(5, 8)] else sleeps
    let c := scrape calls
    if c = 0 then retryLoop scrape left (calls + 1) sleeps'
    else (c, calls + 1, sleeps')

/-- `max_retries` of `app2.py` (line 112). -/
def max_retries : Nat := 3

/-- One iteration of `process_csv`'s outer loop in `app2.py` (lines
122-144): zero-fill the ZIP, run the retry loop, and record the result row
`(State, ZIP, Age, Unsubsidized Cost)` (the cost written is
`cost if cost > 0 else 0`).  Also returns the number of scraper calls and
the sleeps performed. -/
def process_zip_app2 (state zipRaw : String) (age : Nat) (scrape : Nat → Nat) :
    (String × String × Nat × Nat) × Nat × List (Nat × Nat) :=
  let z := zfill5 zipRaw
  let out := retryLoop scrape max_retries 0 []
  ((state, z, age, if 0 < out.1 then out.1 else 0), out.2.1, out.2.2)

/-!
## Resumable Batch Runner (`scraper_v2.py` `main`, lines 264-358)

The input CSV rows carry a `zip_code` and possibly a `state`; the
`zip_to_state` lookup built from `merged_results_v9.csv` is taken as a
given association list (first match wins, as `groupby(...).first()`
produces unique keys).  The persisted output file is the list of
`QuoteResult`s; each processed ZIP is appended to it immediately.  The
set `existing_zips` is computed once, before the loop.
-/

/-- One row of the input ZIP list for `scraper_v2.py`'s `main`:
`state = none` models a missing/NaN `state` column entry. -/
structure ZipRow where
  zip_code : String
  state : Option String
deriving DecidableEq, Repr

/-- First-match association lookup (Python dict with unique keys). -/
def lookupFirst {α β : Type} [DecidableEq α] : List (α × β) → α → Option β
  | [], _ => none
  | p :: rest, k => if p.1 = k then some p.2 else lookupFirst rest k

/-- The state used for a row (`scraper_v2.py` lines 313-320): the row's own
`state` if present, otherwise the `zip_to_state` lookup; `none` means the
row is skipped with a warning. -/
def rowState (row : ZipRow) (zipToState : List (String × String)) (z : String) :
    Option String :=
  match row.state with
  | some st => some st
  | none => lookupFirst zipToState z

/-- The per-row loop of `scraper_v2.py`'s `main` (lines 305-340):
skip rows whose zero-filled ZIP is in `existingZips` (computed once) or
whose state cannot be determined; otherwise scrape (age 0) and append the
result.  `proto` gives the protocol outcome for a `(state, zip)` request. -/
def batchLoopV2 (zipToState : List (String × String))
    (proto : String → String → Except PageError String)
    (existingZips : List String) : List ZipRow → List QuoteResult
  | [] => []
  | row :: rest =>
    let z := zfill5 row.zip_code
    if z ∈ existingZips then batchLoopV2 zipToState proto existingZips rest
    else
      match rowState row zipToState z with
      | none => batchLoopV2 zipToState proto existingZips rest
      | some st =>
        scrape_kff_calculator_v2 st z 0 (proto st z) ::
          batchLoopV2 zipToState proto existingZips rest

/-- `main` of `scraper_v2.py` as a function of the pre-existing output
file: loads `existing_zips` from it (lines 296-303, zero-filling each
persisted `Zip`), then appends each new result to the file (incremental
save, lines 327-338).  The final persisted file is returned. -/
def runScraperV2Main (rows : List ZipRow) (zipToState : List (String × String))
    (existing : List QuoteResult)
    (proto : String → String → Except PageError String) : List QuoteResult :=
  existing ++ batchLoopV2 zipToState proto (existing.map fun r => zfill5 r.zip) rows

/-- The `(state, zip)` keys of a persisted result list. -/
def keysOf (l : List QuoteResult) : List (String × String) :=
  l.map fun r => (r.state, r.zip)

/-!
## Parameter-file updater (`update_yaml_2026.py`)

The downstream YAML is a nested mapping state -> rating-area key ->
effective-date -> premium.  Rating-area keys are integers for numeric
areas and strings for alphanumeric ones (`3N`, `3S`); premiums are
modelled as rationals.  Python dict assignment `d[k] = v` keeps the key's
position when it exists and appends otherwise.
-/

/-- A YAML rating-area key: `int` for numeric areas, the raw string
otherwise. -/
abbrev AreaKey := Int ⊕ String

/-- Dates-to-premium mapping of one rating area. -/
abbrev DateMap := List (String × ℚ)

/-- One state's rating areas. -/
abbrev AreaMap := List (AreaKey × DateMap)

/-- The whole parameter structure. -/
abbrev YamlData := List (String × AreaMap)

/-- Python dict assignment `d[k] = v` on an association list. -/
def dictSet {α β : Type} [DecidableEq α] (l : List (α × β)) (k : α) (v : β) :
    List (α × β) :=
  if l.any (fun p => p.1 = k) then l.map (fun p => if p.1 = k then (k, v) else p)
  else l ++ [(k, v)]

/-- Python `int(s)` on the simple decimal numerals that appear as rating
areas (optional leading minus, then ASCII digits). -/
def pyInt? (s : String) : Option Int :=
  match s.data with
  | '-' :: ds =>
    if !ds.isEmpty && ds.all Char.isDigit then
      some (-(ds.foldl (fun a c => a * 10 + (c.toNat - 48)) 0 : Nat))
    else none
  | ds =>
    if !ds.isEmpty && ds.all Char.isDigit then
      some ((ds.foldl (fun a c => a * 10 + (c.toNat - 48)) 0 : Nat))
    else none

/-- The area-key conversion of `update_yaml_2026.py` (lines 125-140) for
the string-typed areas the CSV join produces: numeric strings become
integer keys, alphanumeric ones stay strings. -/
def toAreaKey (area : String) : AreaKey :=
  match pyInt? area with
  | some n => Sum.inl n
  | none => Sum.inr area

/-- One iteration of the 2026 insertion loop (`update_yaml_2026.py` lines
121-154): skip if the state or the converted rating-area key is absent,
otherwise assign `ordered_data[state][area_key]['2026-01-01'] = cost`. -/
def insert2026 (d : YamlData) (entry : (String × String) × ℚ) : YamlData :=
  match lookupFirst d entry.1.1 with
  | none => d
  | some areas =>
    match lookupFirst areas (toAreaKey entry.1.2) with
    | none => d
    | some dates =>
      dictSet d entry.1.1
        (dictSet areas (toAreaKey entry.1.2) (dictSet dates "2026-01-01" entry.2))

/-- The whole insertion loop over the scraped `(State, rating_area) ->
cost` dictionary (already grouped, `ERROR` rows removed; lines 41-49). -/
def update_yaml_2026 (d : YamlData) (slspc : List ((String × String) × ℚ)) :
    YamlData :=
  slspc.foldl insert2026 d

/-- Nested lookup: the premium stored for (state, area key, date). -/
def premiumAt (d : YamlData) (state : String) (k : AreaKey) (date : String) :
    Option ℚ :=
  (lookupFirst d state).bind fun areas =>
    (lookupFirst areas k).bind fun dates => lookupFirst dates date

/-- Is (state, area key) a populated slot of the structure? -/
def hasArea (d : YamlData) (state : String) (k : AreaKey) : Bool :=
  ((lookupFirst d state).bind fun areas => lookupFirst areas k).isSome

/-!
## Claims C9 and C10: the county-name normalizer
-/

/-- C9: the county-name normalization function maps the exact input
"De Witt County" to "DeWitt", and the exact input "St Louis" to
"St. Louis". -/
theorem C9_standardize_examples :
    standardize_county_name "De Witt County" = "DeWitt" ∧
    standardize_county_name "St Louis" = "St. Louis" := by
  decide

/-- C10 counterexample: `standardize_county_name` is NOT idempotent.
Removing the first " County" of "X Cou Countynty" splices "X Cou" and
"nty" into a brand-new "X County" (Python's `replace` does not rescan the
spliced text), which a second application reduces to "X". -/
theorem C10_counterexample_not_idempotent :
    ¬ standardize_county_name (standardize_county_name "X Cou Countynty")
      = standardize_county_name "X Cou Countynty" := by
  decide

/-- C10 (amended): `standardize_county_name` is not idempotent on all
strings, but the Trail-specific part of the claim holds: the sequential
entries 'Trail'→'Traill' and 'Trailll'→'Traill' compose so that
re-normalizing a name already normalized through the Trail rules leaves
it unchanged ("Trail" normalizes to "Traill", which is a fixed point, as
is "Trailll"). -/
theorem C10_amended_trail_entries_compose :
    standardize_county_name "Trail" = "Traill" ∧
    standardize_county_name (standardize_county_name "Trail")
      = standardize_county_name "Trail" ∧
    standardize_county_name (standardize_county_name "Trail County")
      = standardize_county_name "Trail County" ∧
    standardize_county_name "Traill" = "Traill" ∧
    standardize_county_name "Trailll" = "Trailll" := by
  decide

/-!
## Claim C1: the Los Angeles override

The "15" branch of the loop (`mergeLA9.py` line 133) does NOT end in
`continue`, unlike the "16" branch (line 136), so control falls through
into the generic ZIP3/county passes, which overwrite the assigned "15".
-/

/-- C1 (code bug): evaluating the resolver at the failing input.  The CA
record with ZIP3 "906" (in the hard-coded "15" list) together with a ZIP3
rule ("CA", "906") → "5" resolves to "5", not to the claimed/specified
override "15": the "15" branch lacks the `continue` its "16" twin has, so
the generic ZIP3 pass overwrites the override. -/
theorem C1_la15_overridden_by_zip3_rule :
    merge_rating_areas [⟨"90650", "Los Angeles", "CA"⟩] [⟨"CA", "906", "5"⟩]
      = [(⟨"90650", "Los Angeles", "CA"⟩, some "5")] ∧
    merge_rating_areas [⟨"90650", "Los Angeles", "CA"⟩]
        [⟨"CA", "Los Angeles", "7"⟩]
      = [(⟨"90650", "Los Angeles", "CA"⟩, some "7")] ∧
    merge_rating_areas [⟨"90001", "Los Angeles", "CA"⟩] [⟨"CA", "900", "5"⟩]
      = [(⟨"90001", "Los Angeles", "CA"⟩, some "16")] := by
  decide

/-!
## Claim C4: territory default
-/

/-- C4: every county-reference record whose state is a territory
(GU, VI, PR, AS, MP) is assigned rating area "1" in the output mapping,
for EVERY rule table — i.e. without consulting the ZIP3-keyed or
county-name-keyed mappings. -/
theorem C4_territory_default (records : List CountyRecord)
    (rules : List AreaRule) (r : CountyRecord)
    (hr : r ∈ records) (ht : r.state ∈ territories) :
    (r, some "1") ∈ merge_rating_areas records rules := by
  unfold merge_rating_areas
  refine List.mem_map.mpr ⟨r, hr, ?_⟩
  unfold resolveRecord
  rw [if_pos ht]

/-- C4 witness: a Puerto Rico record resolves to "1" under a rule table
that mentions neither PR ZIP3s nor PR counties. -/
theorem C4_territory_default_witness :
    (⟨"00601", "Adjuntas", "PR"⟩, some "1") ∈
      merge_rating_areas [⟨"00601", "Adjuntas", "PR"⟩]
        [⟨"CA", "906", "5"⟩] :=
  C4_territory_default _ _ _ (by decide) (by decide)

/-!
## Claim C5: retry semantics of `app2.py`
-/

/-- C5: when every attempt for a ZIP yields the failure sentinel (cost 0),
`process_csv` of `app2.py` makes exactly `max_retries = 3` scraper calls
for that ZIP, sleeps a `random.uniform(5, 8)`-second delay before each
retry (i.e. before attempts 2 and 3, not before the first attempt), and
records a final result row carrying the sentinel cost 0 — as a returned
value, not an exception. -/
theorem C5_retry_exhaustion (scrape : Nat → Nat) (state zipRaw : String)
    (age : Nat) (hfail : ∀ i, scrape i = 0) :
    process_zip_app2 state zipRaw age scrape
      = ((state, zfill5 zipRaw, age, 0), 3, [(5, 8), (5, 8)]) := by
  unfold process_zip_app2 max_retries
  simp [retryLoop, hfail]

/-- C5 witness: the always-failing scraper at a concrete request. -/
theorem C5_retry_exhaustion_witness :
    process_zip_app2 "ca" "982" 30 (fun _ => 0)
      = (("ca", "00982", 30, 0), 3, [(5, 8), (5, 8)]) :=
  C5_retry_exhaustion (fun _ => 0) "ca" "982" 30 (fun _ => rfl)

/-!
## Claim C2: protocol failures and the batch
-/

/-- C2 counterexample: the `app.py` variant of the Quote Extractor does
NOT convert a protocol exception into an "ERROR"-cost result — it
re-raises it to the batch caller (`app.py` line 62). -/
theorem C2_counterexample_app_propagates :
    scrape_kff_calculator_app "ca" "90210" 30 (Except.error PageError.timeout)
      = Except.error PageError.timeout ∧
    ∀ r : QuoteResult,
      scrape_kff_calculator_app "ca" "90210" 30 (Except.error PageError.timeout)
        ≠ Except.ok r := by
  exact ⟨rfl, fun r h => by cases h⟩

/-- C2 (amended): in `scraper_v2.py` every protocol exception is caught
inside the invocation, which returns a QuoteResult with the sentinel cost
"ERROR"; in `app.py` the invocation propagates the exception to the batch
caller `process_csv`, which catches it per-request and drops the row — so
in both variants a batch run is a total function of its inputs and never
crashes because of a per-request protocol failure (`process_csv` returns
exactly the successfully scraped rows). -/
theorem C2_amended_error_containment (e : PageError) (state zip : String)
    (age : Nat) (rows : List String) (st : String)
    (proto : String → Except PageError String) :
    (scrape_kff_calculator_v2 state zip age (Except.error e)).cost = "ERROR" ∧
    scrape_kff_calculator_app state zip age (Except.error e) = Except.error e ∧
    process_csv_app rows st age proto
      = rows.filterMap fun z =>
          (scrape_kff_calculator_app st (zfill5 z) age (proto (zfill5 z))).toOption := by
  refine ⟨rfl, rfl, ?_⟩
  induction rows with
  | nil => rfl
  | cons z rest ih =>
    rw [List.filterMap_cons]
    unfold process_csv_app
    cases h : proto (zfill5 z) with
    | ok cost => simp [scrape_kff_calculator_app, h, Except.toOption, ih]
    | error err => simp [scrape_kff_calculator_app, h, Except.toOption, ih]

/-!
## Claim C3: ZIP3-over-county priority
-/

/-- C3 counterexample: a CA record whose ZIP3 "900" is in the hard-coded
"16" list matches a ZIP3 rule (value "5") and a county rule (value "7"),
yet resolves to "16" — the `continue` of the "16" branch skips the ZIP3
pass entirely, so the record is NOT assigned the ZIP3 rule's value. -/
theorem C3_counterexample_la16_blocks_zip3 :
    lookupLast
        (zip3_mapping [⟨"CA", "900", "5"⟩, ⟨"CA", "Los Angeles", "7"⟩])
        ("CA", "900") = some "5" ∧
    lookupLast
        (county_mapping [⟨"CA", "900", "5"⟩, ⟨"CA", "Los Angeles", "7"⟩])
        ("CA", "Los Angeles") = some "7" ∧
    merge_rating_areas [⟨"90001", "Los Angeles", "CA"⟩]
        [⟨"CA", "900", "5"⟩, ⟨"CA", "Los Angeles", "7"⟩]
      = [(⟨"90001", "Los Angeles", "CA"⟩, some "16")] := by
  decide

/-- C3 (amended): for every non-territory record EXCEPT the CA records
whose ZIP3 is in the hard-coded "16" override list, a match in the
ZIP3-keyed mapping decides the rating area: the record is assigned the
ZIP3 rule's value whatever the county-name-keyed mapping says, so a
record assigned by the ZIP3 pass is never reassigned by the county pass. -/
theorem C3_amended_zip3_priority (records : List CountyRecord)
    (rules : List AreaRule) (r : CountyRecord) (a : String)
    (hr : r ∈ records)
    (hterr : r.state ∉ territories)
    (hla16 : ¬(r.state = "CA" ∧ zip3_of r.zip ∈ la16))
    (hz : lookupLast (zip3_mapping rules) (r.state, zip3_of r.zip) = some a) :
    (r, some a) ∈ merge_rating_areas records rules := by
  unfold merge_rating_areas
  refine List.mem_map.mpr ⟨r, hr, ?_⟩
  unfold resolveRecord
  rw [if_neg hterr]
  by_cases h15 : r.state = "CA" ∧ zip3_of r.zip ∈ la15
  · rw [if_pos h15]
    unfold genericPasses
    rw [hz]
  · rw [if_neg h15, if_neg hla16]
    unfold genericPasses
    rw [hz]

/-- C3 witness: a Massachusetts record matching both a ZIP3 rule (value
"3") and a county rule with a different value ("9") resolves to the ZIP3
rule's "3". -/
theorem C3_amended_zip3_priority_witness :
    (⟨"02101", "Suffolk", "MA"⟩, some "3") ∈
      merge_rating_areas [⟨"02101", "Suffolk", "MA"⟩]
        [⟨"MA", "021", "3"⟩, ⟨"MA", "Suffolk", "9"⟩] :=
  C3_amended_zip3_priority _ _ _ _ (by decide) (by decide) (by decide) (by decide)

/-!
## Claim C6: the not-found sentinel of the extractors

Helper lemmas: if a text has no `'$'`-followed-by-digit substring then
none of the dollar-pattern matchers can succeed on it.
-/

theorem hasDollarDigit_append (a b : List Char)
    (h : hasDollarDigit b = true) : hasDollarDigit (a ++ b) = true := by
  induction a with
  | nil => simpa using h
  | cons c a ih => simp [hasDollarDigit, ih]

theorem hasDollarDigit_of_suffix {s l : List Char} (hs : s <:+ l)
    (h : hasDollarDigit s = true) : hasDollarDigit l = true := by
  obtain ⟨t, rfl⟩ := hs
  exact hasDollarDigit_append t s h

theorem hasDollarDigit_tail {c : Char} {l : List Char}
    (h : hasDollarDigit (c :: l) = false) : hasDollarDigit l = false := by
  simp only [hasDollarDigit, Bool.or_eq_false_iff] at h
  exact h.2

theorem hasDollarDigit_head {c : Char} {l : List Char}
    (h : hasDollarDigit (c :: l) = false) :
    reMatchDollarDigits (c :: l) = false := by
  simp only [hasDollarDigit, Bool.or_eq_false_iff] at h
  exact h.1

theorem takeWhile_digit_head {l : List Char}
    (h : ¬(l.takeWhile Char.isDigit).isEmpty = true) :
    ∃ d t, l = d :: t ∧ d.isDigit = true := by
  cases l with
  | nil => simp [List.takeWhile] at h
  | cons d t =>
    by_cases hd : d.isDigit
    · exact ⟨d, t, rfl, hd⟩
    · rw [List.takeWhile_cons] at h
      simp [hd] at h

theorem matchDollarAt_eq_none {l : List Char}
    (h : hasDollarDigit l = false) : matchDollarAt l = none := by
  cases l with
  | nil => rfl
  | cons c rest =>
    by_cases hc : c = '$'
    · subst hc
      have he : (rest.takeWhile Char.isDigit).isEmpty = true := by
        by_contra hne
        obtain ⟨d, t, rfl, hd⟩ := takeWhile_digit_head hne
        have := hasDollarDigit_head h
        simp [reMatchDollarDigits, hd] at this
      simp [matchDollarAt, he]
    · simp [matchDollarAt, hc]

theorem reSearchDollar_eq_none {l : List Char}
    (h : hasDollarDigit l = false) : reSearchDollar l = none := by
  induction l with
  | nil => rfl
  | cons c rest ih =>
    simp [reSearchDollar, matchDollarAt_eq_none h, ih (hasDollarDigit_tail h)]

theorem stripPrefixL_suffix {pat l r : List Char}
    (h : stripPrefixL pat l = some r) : r <:+ l := by
  unfold stripPrefixL at h
  split at h
  · cases Option.some.inj h
    exact List.drop_suffix _ _
  · cases h

theorem matchSpanDollarAt_eq_none {l : List Char}
    (h : hasDollarDigit l = false) : matchSpanDollarAt l = none := by
  unfold matchSpanDollarAt
  split
  · rfl
  · next r1 hstrip =>
    split
    · rfl
    · next g r2 hdrop =>
      match r2, hdrop with
      | [], _ => rfl
      | c :: r3, hdrop =>
        by_cases hc : c = '$'
        · subst hc
          have he : (r3.takeWhile Char.isDigit).isEmpty = true := by
            by_contra hne
            obtain ⟨d, t, hr3, hd⟩ := takeWhile_digit_head hne
            subst hr3
            have hsuf : (g :: '$' :: d :: t) <:+ l := by
              have h1 : (g :: '$' :: d :: t) <:+ r1 := by
                rw [← hdrop]
                exact List.dropWhile_suffix _
              exact h1.trans (stripPrefixL_suffix hstrip)
            have : hasDollarDigit (g :: '$' :: d :: t) = true := by
              simp [hasDollarDigit, reMatchDollarDigits, hd]
            rw [hasDollarDigit_of_suffix hsuf this] at h
            cases h
          simp [he]
        · simp [hc]

theorem findSpanDollar_eq_none {l : List Char}
    (h : hasDollarDigit l = false) : findSpanDollar l = none := by
  induction l with
  | nil => rfl
  | cons c rest ih =>
    simp [findSpanDollar, matchSpanDollarAt_eq_none h,
      ih (hasDollarDigit_tail h)]

theorem dropAfterSub_suffix {pat l s : List Char}
    (h : dropAfterSub pat l = some s) : s <:+ l := by
  induction l with
  | nil =>
    unfold dropAfterSub at h
    split at h
    · cases Option.some.inj h
      exact List.nil_suffix
    · cases h
  | cons c rest ih =>
    unfold dropAfterSub at h
    cases hsp : stripPrefixL pat (c :: rest) with
    | some r =>
      rw [hsp] at h
      cases Option.some.inj h
      exact stripPrefixL_suffix hsp
    | none =>
      rw [hsp] at h
      exact (ih h).trans (List.suffix_cons c rest)

theorem strategy1_no_dollar {spans : List (String × Option String)}
    (h : ∀ s ∈ spans, hasDollarDigit s.1.data = false) :
    strategy1 spans = some none := by
  induction spans with
  | nil => rfl
  | cons sp rest ih =>
    have hm : reMatchDollarDigits sp.1.data = false := by
      have htd := h sp (List.mem_cons_self _ _)
      cases hl : sp.1.data with
      | nil => rfl
      | cons c rest2 =>
        rw [hl] at htd
        exact hasDollarDigit_head htd
    simp only [strategy1]
    rw [if_neg (by simp [hm])]
    exact ih fun s hs => h s (List.mem_cons_of_mem _ hs)

theorem extract_app_not_found {t : String}
    (h : hasDollarDigit t.data = false) :
    extract_unsubsidized_cost_app (some t) = "N/A" := by
  have heq : extract_unsubsidized_cost_app (some t)
      = match reSearchDollar t.data with
        | some g => (⟨g⟩ : String)
        | none => "N/A" := rfl
  rw [heq, reSearchDollar_eq_none h]

theorem extract_v2_not_found {page : PageModel}
    (hspans : ∀ s ∈ page.boldBlueSpans, hasDollarDigit s.1.data = false)
    (hhtml : hasDollarDigit (page.html.data.map asciiLower) = false)
    (hnod : ∀ s ∈ page.boldBlueSpans, "$".data.isPrefixOf s.1.data = false) :
    extract_unsubsidized_cost_v2 page = "N/A" := by
  have h3 : strategy3 page.boldBlueSpans = none := by
    unfold strategy3
    rw [List.find?_eq_none.mpr fun s hs => by simp [hnod s hs]]
  have h2 : strategy2 page.html = none := by
    unfold strategy2
    cases hd : dropAfterSub "silver plan would cost:".data
        (page.html.data.map asciiLower) with
    | none => rfl
    | some suffix =>
      have hsf : hasDollarDigit suffix = false := by
        by_contra hx
        rw [Bool.not_eq_false] at hx
        rw [hasDollarDigit_of_suffix (dropAfterSub_suffix hd) hx] at hhtml
        cases hhtml
      show findSpanDollar suffix = none
      exact findSpanDollar_eq_none hsf
  unfold extract_unsubsidized_cost_v2
  rw [strategy1_no_dollar hspans, h2, h3]

/-- C6 counterexample: `scraper_v2.py`'s extractor does not always return
"N/A" on a loaded page with no dollar-digit pattern — its strategy-3
fallback returns any bold-blue span text that merely starts with `'$'`,
stripped of `'$'` and `','`.  On a page whose only span text is the bare
"$" (which contains no `$`-digits substring) it returns "", which is
neither "N/A" nor "ERROR" nor an exception. -/
theorem C6_counterexample_v2_bare_dollar :
    hasDollarDigit ("$" : String).data = false ∧
    extract_unsubsidized_cost_v2 ⟨[("$", some "x")], ""⟩ = "" ∧
    ("" : String) ≠ "N/A" ∧ ("" : String) ≠ "ERROR" := by
  decide

/-- C6 (amended): when the displayed cost text contains no substring
matching a dollar sign followed by digits, the `app.py` extractor returns
the sentinel "N/A" (also when the cost element lookup itself raises), and
the `scraper_v2.py` extractor returns "N/A" provided additionally that no
bold-blue span text starts with a bare `'$'` (otherwise its strategy-3
fallback returns that text with `'$'`/`','` stripped, as the
counterexample shows); neither returns "ERROR" or raises. -/
theorem C6_amended_not_found_sentinel (t : String) (page : PageModel)
    (ht : hasDollarDigit t.data = false)
    (hspans : ∀ s ∈ page.boldBlueSpans, hasDollarDigit s.1.data = false)
    (hhtml : hasDollarDigit (page.html.data.map asciiLower) = false)
    (hnod : ∀ s ∈ page.boldBlueSpans, "$".data.isPrefixOf s.1.data = false) :
    extract_unsubsidized_cost_app (some t) = "N/A" ∧
    extract_unsubsidized_cost_app none = "N/A" ∧
    extract_unsubsidized_cost_v2 page = "N/A" :=
  ⟨extract_app_not_found ht, rfl, extract_v2_not_found hspans hhtml hnod⟩

/-- C6 witness: a concrete anomalous-but-loaded page. -/
theorem C6_amended_not_found_sentinel_witness :
    extract_unsubsidized_cost_app (some "premium unavailable") = "N/A" ∧
    extract_unsubsidized_cost_app none = "N/A" ∧
    extract_unsubsidized_cost_v2
      ⟨[("no cost shown", some "Silver plan")], "<div>USD 95</div>"⟩ = "N/A" :=
  C6_amended_not_found_sentinel "premium unavailable"
    ⟨[("no cost shown", some "Silver plan")], "<div>USD 95</div>"⟩
    (by decide) (by decide) (by decide) (by decide)

/-!
## Claim C7: resumable batch idempotence

Helper lemmas about `batchLoopV2`.  The `(state, zip)` keys of the
persisted results depend only on the input rows, the state lookup and the
skip set — not on the protocol outcomes — so key-set statements hold even
when the two runs see different network behavior.
-/

theorem zfill5_of_ge {s : String} (h : 5 ≤ s.data.length) : zfill5 s = s := by
  unfold zfill5
  rw [if_pos h]

theorem zfill5_len (s : String) : 5 ≤ (zfill5 s).data.length := by
  unfold zfill5
  by_cases h : 5 ≤ s.data.length
  · rw [if_pos h]
    exact h
  · rw [if_neg h]
    show 5 ≤ (List.replicate (5 - s.data.length) '0' ++ s.data).length
    rw [List.length_append, List.length_replicate]
    omega

theorem zfill5_idem (s : String) : zfill5 (zfill5 s) = zfill5 s :=
  zfill5_of_ge (zfill5_len s)

theorem scrapeV2_state (st z : String) (a : Nat) (o : Except PageError String) :
    (scrape_kff_calculator_v2 st z a o).state = pyUpper st := by
  cases o <;> rfl

theorem scrapeV2_zip (st z : String) (a : Nat) (o : Except PageError String) :
    (scrape_kff_calculator_v2 st z a o).zip = z := by
  cases o <;> rfl

theorem batchLoopV2_append (zts : List (String × String))
    (p : String → String → Except PageError String) (es : List String)
    (l1 l2 : List ZipRow) :
    batchLoopV2 zts p es (l1 ++ l2)
      = batchLoopV2 zts p es l1 ++ batchLoopV2 zts p es l2 := by
  induction l1 with
  | nil => rfl
  | cons row rest ih =>
    rw [List.cons_append]
    simp only [batchLoopV2]
    by_cases hz : zfill5 row.zip_code ∈ es
    · rw [if_pos hz, if_pos hz, ih]
    · rw [if_neg hz, if_neg hz]
      cases hrs : rowState row zts (zfill5 row.zip_code) with
      | none => exact ih
      | some st => simp only [List.cons_append, ih]

theorem keysOf_append (a b : List QuoteResult) :
    keysOf (a ++ b) = keysOf a ++ keysOf b :=
  List.map_append _ a b

theorem batchLoopV2_keys_proto (zts : List (String × String))
    (p q : String → String → Except PageError String) (es : List String)
    (l : List ZipRow) :
    keysOf (batchLoopV2 zts p es l) = keysOf (batchLoopV2 zts q es l) := by
  induction l with
  | nil => rfl
  | cons row rest ih =>
    simp only [batchLoopV2]
    by_cases hz : zfill5 row.zip_code ∈ es
    · rw [if_pos hz, if_pos hz]
      exact ih
    · rw [if_neg hz, if_neg hz]
      cases hrs : rowState row zts (zfill5 row.zip_code) with
      | none => exact ih
      | some st =>
        simp only [keysOf, List.map_cons] at ih ⊢
        rw [scrapeV2_state, scrapeV2_zip, scrapeV2_state, scrapeV2_zip, ih]

theorem batchLoopV2_skip_all (zts : List (String × String))
    (p : String → String → Except PageError String) (es : List String)
    (l : List ZipRow)
    (h : ∀ row ∈ l, zfill5 row.zip_code ∈ es
        ∨ rowState row zts (zfill5 row.zip_code) = none) :
    batchLoopV2 zts p es l = [] := by
  induction l with
  | nil => rfl
  | cons row rest ih =>
    have hrest : batchLoopV2 zts p es rest = [] :=
      ih fun r hr => h r (List.mem_cons_of_mem _ hr)
    simp only [batchLoopV2]
    rcases h row (List.mem_cons_self _ _) with hz | hrs
    · rw [if_pos hz]
      exact hrest
    · by_cases hz : zfill5 row.zip_code ∈ es
      · rw [if_pos hz]
        exact hrest
      · rw [if_neg hz, hrs]
        exact hrest

theorem batchLoopV2_es_congr (zts : List (String × String))
    (p : String → String → Except PageError String) (es es' : List String)
    (l : List ZipRow)
    (h : ∀ row ∈ l, zfill5 row.zip_code ∈ es ↔ zfill5 row.zip_code ∈ es') :
    batchLoopV2 zts p es l = batchLoopV2 zts p es' l := by
  induction l with
  | nil => rfl
  | cons row rest ih =>
    have hrest := ih fun r hr => h r (List.mem_cons_of_mem _ hr)
    simp only [batchLoopV2]
    by_cases hz : zfill5 row.zip_code ∈ es
    · rw [if_pos hz, if_pos ((h row (List.mem_cons_self _ _)).mp hz)]
      exact hrest
    · rw [if_neg hz,
        if_neg (fun hx => hz ((h row (List.mem_cons_self _ _)).mpr hx))]
      cases hrs : rowState row zts (zfill5 row.zip_code) with
      | none => exact hrest
      | some st => rw [hrest]

theorem batchLoopV2_zips_sublist (zts : List (String × String))
    (p : String → String → Except PageError String) (es : List String)
    (l : List ZipRow) :
    List.Sublist ((batchLoopV2 zts p es l).map fun r => r.zip)
      (l.map fun row => zfill5 row.zip_code) := by
  induction l with
  | nil => exact List.Sublist.refl _
  | cons row rest ih =>
    simp only [batchLoopV2, List.map_cons]
    by_cases hz : zfill5 row.zip_code ∈ es
    · rw [if_pos hz]
      exact ih.cons _
    · rw [if_neg hz]
      cases hrs : rowState row zts (zfill5 row.zip_code) with
      | none => exact ih.cons _
      | some st =>
        simp only [List.map_cons, scrapeV2_zip]
        exact ih.cons₂ _

theorem zip_mem_batchLoopV2 (zts : List (String × String))
    (p : String → String → Except PageError String) (es : List String)
    (l : List ZipRow) (row : ZipRow) (hrow : row ∈ l)
    (hes : zfill5 row.zip_code ∉ es)
    (hst : rowState row zts (zfill5 row.zip_code) ≠ none) :
    zfill5 row.zip_code ∈ (batchLoopV2 zts p es l).map fun r => r.zip := by
  induction l with
  | nil => cases hrow
  | cons r0 rest ih =>
    simp only [batchLoopV2]
    rcases List.mem_cons.mp hrow with rfl | hmem
    · rw [if_neg hes]
      cases hrs : rowState row zts (zfill5 row.zip_code) with
      | none => exact absurd hrs hst
      | some st =>
        simp only [List.map_cons, scrapeV2_zip]
        exact List.mem_cons_self _ _
    · by_cases hz : zfill5 r0.zip_code ∈ es
      · rw [if_pos hz]
        exact ih hmem
      · rw [if_neg hz]
        cases hrs : rowState r0 zts (zfill5 r0.zip_code) with
        | none => exact ih hmem
        | some st =>
          simp only [List.map_cons]
          exact List.mem_cons_of_mem _ (ih hmem)

theorem batchLoopV2_zip_zfilled (zts : List (String × String))
    (p : String → String → Except PageError String) (es : List String)
    (l : List ZipRow) :
    ∀ r ∈ batchLoopV2 zts p es l, zfill5 r.zip = r.zip := by
  induction l with
  | nil => intro r hr; cases hr
  | cons row rest ih =>
    intro r hr
    simp only [batchLoopV2] at hr
    by_cases hz : zfill5 row.zip_code ∈ es
    · rw [if_pos hz] at hr
      exact ih r hr
    · rw [if_neg hz] at hr
      cases hrs : rowState row zts (zfill5 row.zip_code) with
      | none =>
        rw [hrs] at hr
        exact ih r hr
      | some st =>
        rw [hrs] at hr
        rcases List.mem_cons.mp hr with rfl | hmem
        · rw [scrapeV2_zip]
          exact zfill5_idem _
        · exact ih r hmem

theorem batchLoopV2_zfill_map (zts : List (String × String))
    (p : String → String → Except PageError String) (es : List String)
    (l : List ZipRow) :
    (batchLoopV2 zts p es l).map (fun r => zfill5 r.zip)
      = (batchLoopV2 zts p es l).map fun r => r.zip :=
  List.map_congr_left fun r hr => batchLoopV2_zip_zfilled zts p es l r hr

/-- C7: running `scraper_v2.py`'s batch on a request list with the output
file of an interrupted earlier run present (modelled as a run over the
first `k` rows) skips every ZIP persisted by that run and appends only the
remaining ones, and — provided the zero-filled input ZIPs are pairwise
distinct — the final persisted file has exactly the same `(state, zip)`
keys as one uninterrupted run over the full list, with no duplicate
`(state, zip)` rows.  The three protocol oracles may differ, so the key
statement does not assume the external service answers identically across
runs. -/
theorem C7_resume_idempotent (rows : List ZipRow) (zts : List (String × String))
    (k : Nat) (p1 p2 p3 : String → String → Except PageError String)
    (hnd : (rows.map fun row => zfill5 row.zip_code).Nodup) :
    keysOf (runScraperV2Main rows zts
        (runScraperV2Main (rows.take k) zts [] p1) p2)
      = keysOf (runScraperV2Main rows zts [] p3)
    ∧ (keysOf (runScraperV2Main rows zts [] p3)).Nodup := by
  have hsplit : rows.take k ++ rows.drop k = rows := List.take_append_drop k rows
  have hnd2 : ((rows.take k).map (fun row => zfill5 row.zip_code)
      ++ (rows.drop k).map fun row => zfill5 row.zip_code).Nodup := by
    rw [← List.map_append, hsplit]
    exact hnd
  have hdisj := (List.nodup_append.mp hnd2).2.2
  have hmain_nil : ∀ (p : String → String → Except PageError String)
      (l : List ZipRow), runScraperV2Main l zts [] p = batchLoopV2 zts p [] l := by
    intro p l
    simp [runScraperV2Main]
  have hS : (batchLoopV2 zts p1 [] (rows.take k)).map (fun r => zfill5 r.zip)
      = (batchLoopV2 zts p1 [] (rows.take k)).map fun r => r.zip :=
    batchLoopV2_zfill_map zts p1 [] (rows.take k)
  have hskip : batchLoopV2 zts p2
      ((batchLoopV2 zts p1 [] (rows.take k)).map fun r => zfill5 r.zip)
      (rows.take k) = [] := by
    apply batchLoopV2_skip_all
    intro row hrow
    by_cases hrs : rowState row zts (zfill5 row.zip_code) = none
    · exact Or.inr hrs
    · refine Or.inl ?_
      rw [hS]
      exact zip_mem_batchLoopV2 zts p1 [] (rows.take k) row hrow
        (List.not_mem_nil _) hrs
  have hdropB : batchLoopV2 zts p2
      ((batchLoopV2 zts p1 [] (rows.take k)).map fun r => zfill5 r.zip)
      (rows.drop k)
      = batchLoopV2 zts p2 [] (rows.drop k) := by
    apply batchLoopV2_es_congr
    intro row hrow
    constructor
    · intro hx
      rw [hS] at hx
      have h1 : zfill5 row.zip_code
          ∈ (rows.take k).map fun row => zfill5 row.zip_code :=
        (batchLoopV2_zips_sublist zts p1 [] (rows.take k)).subset hx
      have h2 : zfill5 row.zip_code
          ∈ (rows.drop k).map fun row => zfill5 row.zip_code :=
        List.mem_map_of_mem _ hrow
      exact absurd h2 (hdisj h1)
    · intro hx
      exact absurd hx (List.not_mem_nil _)
  have hloop : batchLoopV2 zts p2
      ((batchLoopV2 zts p1 [] (rows.take k)).map fun r => zfill5 r.zip) rows
      = batchLoopV2 zts p2 [] (rows.drop k) := by
    refine Eq.trans (congrArg _ hsplit).symm ?_
    rw [batchLoopV2_append, hskip, hdropB, List.nil_append]
  constructor
  · rw [hmain_nil p1 (rows.take k), hmain_nil p3 rows]
    unfold runScraperV2Main
    rw [hloop, keysOf_append,
      batchLoopV2_keys_proto zts p1 p3 [] (rows.take k),
      batchLoopV2_keys_proto zts p2 p3 [] (rows.drop k),
      ← keysOf_append, ← batchLoopV2_append, hsplit]
  · rw [hmain_nil p3 rows]
    have hzips : ((batchLoopV2 zts p3 [] rows).map fun r => r.zip).Nodup :=
      List.Nodup.sublist (batchLoopV2_zips_sublist zts p3 [] rows) hnd
    have hcomp : (keysOf (batchLoopV2 zts p3 [] rows)).map Prod.snd
        = (batchLoopV2 zts p3 [] rows).map fun r => r.zip := by
      simp only [keysOf, List.map_map]
      rfl
    apply List.Nodup.of_map Prod.snd
    rw [hcomp]
    exact hzips

/-- C7 witness: a two-row list, resumed after its first row was persisted,
agrees in keys with an uninterrupted run and has no duplicate keys. -/
theorem C7_resume_idempotent_witness :
    keysOf (runScraperV2Main [⟨"7", some "nj"⟩, ⟨"8", none⟩] [("00008", "ny")]
        (runScraperV2Main ([⟨"7", some "nj"⟩, ⟨"8", none⟩].take 1)
          [("00008", "ny")] [] fun _ _ => Except.ok "9")
        fun _ _ => Except.ok "10")
      = keysOf (runScraperV2Main [⟨"7", some "nj"⟩, ⟨"8", none⟩]
          [("00008", "ny")] [] fun _ _ => Except.ok "11")
    ∧ (keysOf (runScraperV2Main [⟨"7", some "nj"⟩, ⟨"8", none⟩]
        [("00008", "ny")] [] fun _ _ => Except.ok "11")).Nodup :=
  C7_resume_idempotent [⟨"7", some "nj"⟩, ⟨"8", none⟩] [("00008", "ny")] 1
    (fun _ _ => Except.ok "9") (fun _ _ => Except.ok "10")
    (fun _ _ => Except.ok "11") (by decide)

/-!
## Claim C8: the parameter-file update is a merge, not a replace

Association-list lemmas for Python dict assignment, then the frame and
insertion properties of the 2026 update loop.
-/

theorem lookupFirst_map_set {α β : Type} [DecidableEq α]
    {l : List (α × β)} {k : α} {v : β}
    (h : l.any (fun p => p.1 = k) = true) :
    lookupFirst (l.map fun p => if p.1 = k then (k, v) else p) k = some v := by
  induction l with
  | nil => simp at h
  | cons p rest ih =>
    rw [List.map_cons]
    by_cases hp : p.1 = k
    · rw [if_pos hp]
      simp [lookupFirst]
    · rw [if_neg hp]
      simp only [lookupFirst]
      rw [if_neg hp]
      apply ih
      simpa [List.any_cons, hp] using h

theorem lookupFirst_map_set_other {α β : Type} [DecidableEq α]
    {l : List (α × β)} {k k' : α} {v : β} (hk : k' ≠ k) :
    lookupFirst (l.map fun p => if p.1 = k then (k, v) else p) k'
      = lookupFirst l k' := by
  induction l with
  | nil => rfl
  | cons p rest ih =>
    rw [List.map_cons]
    by_cases hp : p.1 = k
    · rw [if_pos hp]
      simp only [lookupFirst]
      rw [if_neg fun h => hk h.symm, if_neg fun h => hk ((hp.symm.trans h).symm)]
      exact ih
    · rw [if_neg hp]
      simp only [lookupFirst]
      by_cases hp' : p.1 = k'
      · rw [if_pos hp', if_pos hp']
      · rw [if_neg hp', if_neg hp']
        exact ih

theorem lookupFirst_append_single {α β : Type} [DecidableEq α]
    {l : List (α × β)} {k : α} {v : β}
    (h : l.any (fun p => p.1 = k) = false) :
    lookupFirst (l ++ [(k, v)]) k = some v := by
  induction l with
  | nil => simp [lookupFirst]
  | cons p rest ih =>
    rw [List.any_cons] at h
    rw [List.cons_append]
    simp only [lookupFirst]
    rw [if_neg (by simpa using (Bool.or_eq_false_iff.mp h).1)]
    exact ih (Bool.or_eq_false_iff.mp h).2

theorem lookupFirst_append_single_other {α β : Type} [DecidableEq α]
    {l : List (α × β)} {k k' : α} {v : β} (hk : k' ≠ k) :
    lookupFirst (l ++ [(k, v)]) k' = lookupFirst l k' := by
  induction l with
  | nil =>
    simp only [List.nil_append, lookupFirst]
    rw [if_neg fun h : k = k' => hk h.symm]
  | cons p rest ih =>
    rw [List.cons_append]
    simp only [lookupFirst]
    by_cases hp : p.1 = k'
    · rw [if_pos hp, if_pos hp]
    · rw [if_neg hp, if_neg hp]
      exact ih

theorem lookupFirst_dictSet_self {α β : Type} [DecidableEq α]
    (l : List (α × β)) (k : α) (v : β) :
    lookupFirst (dictSet l k v) k = some v := by
  unfold dictSet
  by_cases h : l.any fun p => p.1 = k
  · rw [if_pos h]
    exact lookupFirst_map_set h
  · rw [if_neg h]
    exact lookupFirst_append_single (Bool.not_eq_true _ ▸ h)

theorem lookupFirst_dictSet_other {α β : Type} [DecidableEq α]
    (l : List (α × β)) (k k' : α) (v : β) (hk : k' ≠ k) :
    lookupFirst (dictSet l k v) k' = lookupFirst l k' := by
  unfold dictSet
  by_cases h : l.any fun p => p.1 = k
  · rw [if_pos h]
    exact lookupFirst_map_set_other hk
  · rw [if_neg h]
    exact lookupFirst_append_single_other hk

theorem insert2026_frame_date (d : YamlData) (entry : (String × String) × ℚ)
    (s : String) (k : AreaKey) (dk : String) (hdk : dk ≠ "2026-01-01") :
    premiumAt (insert2026 d entry) s k dk = premiumAt d s k dk := by
  cases h1 : lookupFirst d entry.1.1 with
  | none => simp [insert2026, h1]
  | some areas =>
    cases h2 : lookupFirst areas (toAreaKey entry.1.2) with
    | none => simp [insert2026, h1, h2]
    | some dates =>
      simp only [insert2026, h1, h2]
      unfold premiumAt
      by_cases hs : s = entry.1.1
      · subst hs
        rw [lookupFirst_dictSet_self, h1]
        simp only [Option.some_bind]
        by_cases hk : k = toAreaKey entry.1.2
        · subst hk
          rw [lookupFirst_dictSet_self, h2]
          simp only [Option.some_bind]
          exact lookupFirst_dictSet_other dates "2026-01-01" dk _ hdk
        · rw [lookupFirst_dictSet_other _ _ _ _ hk]
      · rw [lookupFirst_dictSet_other _ _ _ _ hs]

theorem insert2026_frame_slot (d : YamlData) (entry : (String × String) × ℚ)
    (s : String) (k : AreaKey)
    (hne : (entry.1.1, toAreaKey entry.1.2) ≠ (s, k)) (dk : String) :
    premiumAt (insert2026 d entry) s k dk = premiumAt d s k dk := by
  cases h1 : lookupFirst d entry.1.1 with
  | none => simp [insert2026, h1]
  | some areas =>
    cases h2 : lookupFirst areas (toAreaKey entry.1.2) with
    | none => simp [insert2026, h1, h2]
    | some dates =>
      simp only [insert2026, h1, h2]
      unfold premiumAt
      by_cases hs : s = entry.1.1
      · subst hs
        rw [lookupFirst_dictSet_self, h1]
        simp only [Option.some_bind]
        have hk : k ≠ toAreaKey entry.1.2 := by
          intro hkk
          exact hne (by rw [hkk])
        rw [lookupFirst_dictSet_other _ _ _ _ hk]
      · rw [lookupFirst_dictSet_other _ _ _ _ hs]

theorem insert2026_hasArea (d : YamlData) (entry : (String × String) × ℚ)
    (s : String) (k : AreaKey) :
    hasArea (insert2026 d entry) s k = hasArea d s k := by
  cases h1 : lookupFirst d entry.1.1 with
  | none => simp [insert2026, h1]
  | some areas =>
    cases h2 : lookupFirst areas (toAreaKey entry.1.2) with
    | none => simp [insert2026, h1, h2]
    | some dates =>
      simp only [insert2026, h1, h2]
      unfold hasArea
      by_cases hs : s = entry.1.1
      · subst hs
        rw [lookupFirst_dictSet_self, h1]
        simp only [Option.some_bind]
        by_cases hk : k = toAreaKey entry.1.2
        · subst hk
          rw [lookupFirst_dictSet_self, h2]
          rfl
        · rw [lookupFirst_dictSet_other _ _ _ _ hk]
      · rw [lookupFirst_dictSet_other _ _ _ _ hs]

theorem insert2026_adds (d : YamlData) (s a : String) (c : ℚ)
    (hpres : hasArea d s (toAreaKey a) = true) :
    premiumAt (insert2026 d ((s, a), c)) s (toAreaKey a) "2026-01-01"
      = some c := by
  unfold hasArea at hpres
  cases h1 : lookupFirst d s with
  | none => rw [h1] at hpres; cases hpres
  | some areas =>
    rw [h1] at hpres
    simp only [Option.some_bind] at hpres
    cases h2 : lookupFirst areas (toAreaKey a) with
    | none => rw [h2] at hpres; cases hpres
    | some dates =>
      simp only [insert2026, h1, h2]
      unfold premiumAt
      rw [lookupFirst_dictSet_self]
      simp only [Option.some_bind]
      rw [lookupFirst_dictSet_self]
      simp only [Option.some_bind]
      rw [lookupFirst_dictSet_self]

theorem update_yaml_frame_date (slspc : List ((String × String) × ℚ))
    (d : YamlData) (s : String) (k : AreaKey) (dk : String)
    (hdk : dk ≠ "2026-01-01") :
    premiumAt (update_yaml_2026 d slspc) s k dk = premiumAt d s k dk := by
  induction slspc generalizing d with
  | nil => rfl
  | cons e rest ih =>
    show premiumAt (update_yaml_2026 (insert2026 d e) rest) s k dk
      = premiumAt d s k dk
    rw [ih (insert2026 d e), insert2026_frame_date d e s k dk hdk]

theorem update_yaml_frame_slot (slspc : List ((String × String) × ℚ))
    (d : YamlData) (s : String) (k : AreaKey)
    (hnot : ∀ e ∈ slspc, (e.1.1, toAreaKey e.1.2) ≠ (s, k)) (dk : String) :
    premiumAt (update_yaml_2026 d slspc) s k dk = premiumAt d s k dk := by
  induction slspc generalizing d with
  | nil => rfl
  | cons e rest ih =>
    show premiumAt (update_yaml_2026 (insert2026 d e) rest) s k dk
      = premiumAt d s k dk
    rw [ih (insert2026 d e) fun e' he' => hnot e' (List.mem_cons_of_mem _ he'),
      insert2026_frame_slot d e s k (hnot e (List.mem_cons_self _ _)) dk]

theorem update_yaml_hasArea (slspc : List ((String × String) × ℚ))
    (d : YamlData) (s : String) (k : AreaKey) :
    hasArea (update_yaml_2026 d slspc) s k = hasArea d s k := by
  induction slspc generalizing d with
  | nil => rfl
  | cons e rest ih =>
    show hasArea (update_yaml_2026 (insert2026 d e) rest) s k = hasArea d s k
    rw [ih (insert2026 d e), insert2026_hasArea d e s k]

theorem update_yaml_adds (slspc : List ((String × String) × ℚ))
    (d : YamlData) (s a : String) (c : ℚ)
    (hmem : ((s, a), c) ∈ slspc)
    (hpres : hasArea d s (toAreaKey a) = true)
    (hkeys : (slspc.map fun e => (e.1.1, toAreaKey e.1.2)).Nodup) :
    premiumAt (update_yaml_2026 d slspc) s (toAreaKey a) "2026-01-01"
      = some c := by
  induction slspc generalizing d with
  | nil => cases hmem
  | cons e rest ih =>
    rw [List.map_cons, List.nodup_cons] at hkeys
    rcases List.mem_cons.mp hmem with rfl | hmem'
    · show premiumAt (update_yaml_2026 (insert2026 d ((s, a), c)) rest)
        s (toAreaKey a) "2026-01-01" = some c
      have hnot : ∀ e' ∈ rest, (e'.1.1, toAreaKey e'.1.2) ≠ (s, toAreaKey a) := by
        intro e' he' heq
        exact hkeys.1 (heq ▸ List.mem_map_of_mem _ he')
      rw [update_yaml_frame_slot rest _ _ _ hnot]
      exact insert2026_adds d s a c hpres
    · show premiumAt (update_yaml_2026 (insert2026 d e) rest)
        s (toAreaKey a) "2026-01-01" = some c
      refine ih (insert2026 d e) hmem' ?_ hkeys.2
      rw [insert2026_hasArea]
      exact hpres

/-- C8: the 2026 parameter-file update is a merge, not a replace.  For a
scraped (state, rating_area, cost) entry whose state and converted
rating-area key exist in the structure (scraped `ERROR` rows were already
filtered out before the grouped dictionary was built), the update stores
cost under the new date key "2026-01-01"; every date key other than
"2026-01-01" keeps its exact value; and if no "2026-01-01" key existed
anywhere beforehand, then EVERY previously present premium value is still
present unchanged afterwards.  The converted `(state, area-key)` pairs of
the scraped dictionary are assumed pairwise distinct, as produced by the
pandas `groupby`. -/
theorem C8_update_is_merge (d : YamlData) (slspc : List ((String × String) × ℚ))
    (s a : String) (c : ℚ)
    (hmem : ((s, a), c) ∈ slspc)
    (hpres : hasArea d s (toAreaKey a) = true)
    (hkeys : (slspc.map fun e => (e.1.1, toAreaKey e.1.2)).Nodup) :
    premiumAt (update_yaml_2026 d slspc) s (toAreaKey a) "2026-01-01" = some c
    ∧ (∀ (s' : String) (k : AreaKey) (dk : String) (v : ℚ), dk ≠ "2026-01-01" →
        premiumAt d s' k dk = some v →
        premiumAt (update_yaml_2026 d slspc) s' k dk = some v)
    ∧ ((∀ (s' : String) (k : AreaKey),
          premiumAt d s' k "2026-01-01" = none) →
        ∀ (s' : String) (k : AreaKey) (dk : String) (v : ℚ),
          premiumAt d s' k dk = some v →
          premiumAt (update_yaml_2026 d slspc) s' k dk = some v) := by
  refine ⟨update_yaml_adds slspc d s a c hmem hpres hkeys, ?_, ?_⟩
  · intro s' k dk v hdk hv
    rw [update_yaml_frame_date slspc d s' k dk hdk]
    exact hv
  · intro hno s' k dk v hv
    by_cases hdk : dk = "2026-01-01"
    · rw [hdk] at hv
      rw [hno s' k] at hv
      cases hv
    · rw [update_yaml_frame_date slspc d s' k dk hdk]
      exact hv

/-- C8 witness: a one-state structure gains the 2026 value and keeps its
2025 value. -/
theorem C8_update_is_merge_witness :
    premiumAt
        (update_yaml_2026 [("AK", [(Sum.inl 1, [("2025-01-01", 100)])])]
          [(("AK", "1"), 200)])
        "AK" (toAreaKey "1") "2026-01-01" = some 200
    ∧ (∀ (s' : String) (k : AreaKey) (dk : String) (v : ℚ),
        dk ≠ "2026-01-01" →
        premiumAt [("AK", [(Sum.inl 1, [("2025-01-01", 100)])])] s' k dk
          = some v →
        premiumAt
          (update_yaml_2026 [("AK", [(Sum.inl 1, [("2025-01-01", 100)])])]
            [(("AK", "1"), 200)]) s' k dk = some v)
    ∧ ((∀ (s' : String) (k : AreaKey),
          premiumAt [("AK", [(Sum.inl 1, [("2025-01-01", 100)])])] s' k
            "2026-01-01" = none) →
        ∀ (s' : String) (k : AreaKey) (dk : String) (v : ℚ),
          premiumAt [("AK", [(Sum.inl 1, [("2025-01-01", 100)])])] s' k dk
            = some v →
          premiumAt
            (update_yaml_2026 [("AK", [(Sum.inl 1, [("2025-01-01", 100)])])]
              [(("AK", "1"), 200)]) s' k dk = some v) :=
  C8_update_is_merge [("AK", [(Sum.inl 1, [("2025-01-01", 100)])])]
    [(("AK", "1"), 200)] "AK" "1" 200 (by decide) (by decide) (by decide)
